import Mathlib

/-!
Verification development for the Eidon CLI (config resolver, command
dispatcher, hello subcommand).  The Python sources are embedded shallowly:
TOML documents become an inductive tree, the mutable `Config` dataclass and
the `sources` dict become explicit state threaded through pure functions,
and process-level effects (raised exceptions, printed output, exit codes)
become explicit result values.
-/

namespace Eidon

mutual
/-- A TOML value as seen by `tomllib.load`: a string, a nested table, or
anything else (int, bool, float, array, ...), which the config code never
accepts. -/
inductive TomlVal where
| vStr : String → TomlVal
| vOther : TomlVal
| vTable : TomlMap → TomlVal
/-- A TOML table: an insertion-ordered list of key/value bindings. -/
inductive TomlMap where
| nil : TomlMap
| cons : String → TomlVal → TomlMap → TomlMap
end

/-- `mapping.get(key)`: first binding of `key` in the (insertion-ordered)
table, as Python dicts resolve keys (TOML tables have unique keys, so the
first binding is the binding). -/
def tlookup : TomlMap → String → Option TomlVal
| TomlMap.nil, _ => none
| TomlMap.cons k v rest, key => if k = key then some v else tlookup rest key

/-- `isinstance(val, str)` filter: keep a looked-up value only when it is a
string. -/
def getStr : Option TomlVal → Option String
| some (TomlVal.vStr s) => some s
| _ => none

/-- Python `str.upper()`, modelled characterwise on the string's character
list (kernel-computable, unlike `String.toUpper`'s iterator loop). -/
def pyUpper (s : String) : String := ⟨s.data.map Char.toUpper⟩

/-- Python `str.strip()`: drop leading and trailing whitespace. -/
def pyStrip (s : String) : String :=
  ⟨((s.data.dropWhile Char.isWhitespace).reverse.dropWhile Char.isWhitespace).reverse⟩

mutual
/-- `_find_name_recursive` (config.py): look for a string under the direct
keys `default_name` then `name`; failing that, recurse into the nested
tables in order. -/
def findNameRecursive : TomlMap → Option String
| m =>
  match getStr (tlookup m "default_name") with
  | some s => some s
  | none =>
    match getStr (tlookup m "name") with
    | some s => some s
    | none => findNameNested m
termination_by m => (sizeOf m, 1)
/-- The `for v in mapping.values()` loop of `_find_name_recursive`:
recurse into each value that is a table, returning the first hit. -/
def findNameNested : TomlMap → Option String
| TomlMap.nil => none
| TomlMap.cons _ (TomlVal.vTable t) rest =>
  match findNameRecursive t with
  | some s => some s
  | none => findNameNested rest
| TomlMap.cons _ _ rest => findNameNested rest
termination_by m => (sizeOf m, 0)
end

/-- The `Config` dataclass (config.py): `default_name` defaults to
`"World"`, `log_level` defaults to `None`. -/
structure Config where
  default_name : String := "World"
  log_level : Option String := none
  deriving DecidableEq, Repr

/-- `sources[k] = v` on a Python dict kept as an insertion-ordered
association list: overwrite the first binding of `k` in place, else append. -/
def dictSet : List (String × String) → String → String → List (String × String)
| [], k, v => [(k, v)]
| (k1, v1) :: rest, k, v =>
  if k1 = k then (k, v) :: rest else (k1, v1) :: dictSet rest k v

/-- `d.get(k)` on the association-list dict. -/
def sget : List (String × String) → String → Option String
| [], _ => none
| (k1, v1) :: rest, k => if k1 = k then some v1 else sget rest k

/-- The mutable state `load_config` threads through its helpers: the
`Config` instance plus the `sources` provenance dict. -/
structure ConfigState where
  cfg : Config
  sources : List (String × String)
  deriving DecidableEq, Repr

/-- `_apply_from_mapping` (config.py): install a found name, then a
top-level string `log_level` (upper-cased), then `[logging].level`
(upper-cased), each tagging its key with `label` in `sources`. -/
def applyFromMapping (st : ConfigState) (m : TomlMap) (label : String) : ConfigState :=
  let st1 :=
    match findNameRecursive m with
    | some nm =>
      { cfg := { st.cfg with default_name := nm },
        sources := dictSet st.sources "default_name" label }
    | none => st
  let st2 :=
    match getStr (tlookup m "log_level") with
    | some s =>
      { cfg := { st1.cfg with log_level := some (pyUpper s) },
        sources := dictSet st1.sources "log_level" label }
    | none => st1
  match tlookup m "logging" with
  | some (TomlVal.vTable t) =>
    match getStr (tlookup t "level") with
    | some s =>
      { cfg := { st2.cfg with log_level := some (pyUpper s) },
        sources := dictSet st2.sources "log_level" label }
    | none => st2
  | _ => st2

/-- What the filesystem offers at one config path: no file, a file whose
read or TOML parse raises, or a parsed table.  (`malformed` also covers an
unreadable file: `_read_toml` raises before `_apply_from_mapping` runs, and
`load_config` catches the exception.) -/
inductive FileState where
| absent : FileState
| malformed : FileState
| parsed : TomlMap → FileState

/-- One `if path.exists(): try: _apply_from_mapping(...) except: pass`
block of `load_config`: only a parsed file changes the state. -/
def applyFile (st : ConfigState) (f : FileState) (label : String) : ConfigState :=
  match f with
  | FileState.parsed m => applyFromMapping st m label
  | _ => st

/-- The state `load_config` starts from: default `Config()` and
`sources = {"default_name": "default", "log_level": "default"}`. -/
def initState : ConfigState :=
  { cfg := {}, sources := [("default_name", "default"), ("log_level", "default")] }

/-- `load_config` (config.py).  Inputs: what the filesystem holds at the
user path and the project path, the `override_path` argument, what the
filesystem holds at that path, and the values of the two environment
variables (`some ""` models a variable set to the empty string — `in
os.environ` is still true then).  An empty `override_path` is falsy in
Python, so the override tier is skipped for it. -/
def loadConfig (userFile projFile : FileState) (overridePath : Option String)
    (overrideFile : FileState) (envName envLevel : Option String) : ConfigState :=
  let st := initState
  let st := applyFile st userFile "user"
  let st := applyFile st projFile "project"
  let st :=
    match overridePath with
    | some p => if p = "" then st else applyFile st overrideFile ("override:" ++ p)
    | none => st
  let st :=
    match envName with
    | some v =>
      { cfg := { st.cfg with default_name := v },
        sources := dictSet st.sources "default_name" "env:EIDON_DEFAULT_NAME" }
    | none => st
  match envLevel with
  | some v =>
    { cfg := { st.cfg with log_level := some (pyUpper v) },
      sources := dictSet st.sources "log_level" "env:EIDON_LOG_LEVEL" }
  | none => st

/-- The name a single file tier defines, if any. -/
def fileName (f : FileState) : Option String :=
  match f with
  | FileState.parsed m => findNameRecursive m
  | _ => none

/-- The raw (not yet upper-cased) log-level string a parsed table defines:
`[logging].level` when it is a string, else the top-level `log_level` when
it is a string. -/
def mapLevelRaw (m : TomlMap) : Option String :=
  match tlookup m "logging" with
  | some (TomlVal.vTable t) =>
    match getStr (tlookup t "level") with
    | some s => some s
    | none => getStr (tlookup m "log_level")
  | _ => getStr (tlookup m "log_level")

/-- The raw log-level string a single file tier defines, if any. -/
def fileLevelRaw (f : FileState) : Option String :=
  match f with
  | FileState.parsed m => mapLevelRaw m
  | _ => none

/-- The (upper-cased) log-level value a single file tier defines, if any. -/
def fileLevel (f : FileState) : Option String :=
  (fileLevelRaw f).map pyUpper

/-- The override tier as a file: absent when no (or an empty) override
path was given, else whatever the filesystem holds at that path. -/
def overrideTier (overridePath : Option String) (overrideFile : FileState) : FileState :=
  match overridePath with
  | some p => if p = "" then FileState.absent else overrideFile
  | none => FileState.absent

/-! ## errors.py -/

/-- Exit-code constants (errors.py). -/
def EXIT_OK : Int := 0

/-- `EXIT_USAGE = 2`: bad CLI usage, missing args, etc. -/
def EXIT_USAGE : Int := 2

/-- `EXIT_RUNTIME = 3`: generic runtime error. -/
def EXIT_RUNTIME : Int := 3

/-- `EXIT_EXISTS = 4`. -/
def EXIT_EXISTS : Int := 4

/-- The `code` attribute an `EidonError` carries: the constructor argument
when given, else the default `2` from `EidonError.__init__`. -/
def eidonErrorCode (given : Option Int) : Int := given.getD 2

/-! ## cli.py: run_cli dispatch and exit-code mapping -/

/-- The possible outcomes of `args.func(args)` inside `run_cli`'s `try`
block: an integer return, a raised `EidonError` carrying its `code`
attribute, a `KeyboardInterrupt`, or any other exception. -/
inductive HandlerOutcome where
| ret : Int → HandlerOutcome
| eidonRaised : Int → HandlerOutcome
| interrupt : HandlerOutcome
| unexpected : HandlerOutcome
  deriving DecidableEq, Repr

/-- What `run_cli` does after parsing: whether it printed usage, and the
exit code it returns. -/
structure CliResult where
  usagePrinted : Bool
  exitCode : Int
  deriving DecidableEq, Repr

/-- The tail of `run_cli` (cli.py): no `func` attribute (no subcommand
chosen) prints help and returns `EXIT_USAGE`; otherwise the handler's
outcome is mapped to an exit code by the `try`/`except` chain. -/
def runCliDispatch (hasSubcommand : Bool) (outcome : HandlerOutcome) : CliResult :=
  if hasSubcommand = false then { usagePrinted := true, exitCode := EXIT_USAGE }
  else
    match outcome with
    | HandlerOutcome.ret n => { usagePrinted := false, exitCode := n }
    | HandlerOutcome.eidonRaised c => { usagePrinted := false, exitCode := c }
    | HandlerOutcome.interrupt => { usagePrinted := false, exitCode := 130 }
    | HandlerOutcome.unexpected => { usagePrinted := false, exitCode := EXIT_RUNTIME }

/-! ## cli.py: _configure_logging -/

/-- The level-name chain of `_configure_logging` (cli.py):
`(cli or "").strip() or (env or "").strip() or (cfg or "").strip() or
"WARNING"` — Python `or` keeps the left operand when it is a non-empty
string.  `none` models an absent CLI flag / unset variable / unset config
value. -/
def configuredLevelName (cli envVar cfgVal : Option String) : String :=
  let a := pyStrip (cli.getD "")
  if a ≠ "" then a
  else
    let b := pyStrip (envVar.getD "")
    if b ≠ "" then b
    else
      let c := pyStrip (cfgVal.getD "")
      if c ≠ "" then c else "WARNING"

/-- `getattr(logging, level_name.upper(), logging.WARNING)` restricted to
the level-name attributes of the `logging` module; any other name falls
back to the `WARNING` (30) default. -/
def getattrLevel (s : String) : Nat :=
  if s = "CRITICAL" then 50
  else if s = "FATAL" then 50
  else if s = "ERROR" then 40
  else if s = "WARNING" then 30
  else if s = "WARN" then 30
  else if s = "INFO" then 20
  else if s = "DEBUG" then 10
  else if s = "NOTSET" then 0
  else 30

/-- The numeric level `_configure_logging` passes to
`logging.basicConfig`. -/
def configureLoggingLevel (cli envVar cfgVal : Option String) : Nat :=
  getattrLevel (pyUpper (configuredLevelName cli envVar cfgVal))

/-! ## commands/hello.py -/

/-- Python truthiness of `getattr(args, "name", None)` / `os.getenv(...)`:
present and a non-empty string. -/
def truthyOpt (o : Option String) : Bool :=
  match o with
  | some s => s ≠ ""
  | none => false

/-- `_effective_name` (hello.py): `args.name` if truthy, else
`EIDON_DEFAULT_NAME` if truthy, else `cfg.default_name` if the config is
attached and the name truthy, else `"World"`. -/
def effectiveName (argName envName : Option String) (cfg : Option Config) : String :=
  if truthyOpt argName then argName.getD ""
  else if truthyOpt envName then envName.getD ""
  else
    match cfg with
    | some c => if c.default_name ≠ "" then c.default_name else "World"
    | none => "World"

/-- What one `_run` call of the hello command does: prints one line to
stdout and returns an exit code, or raises an `EidonError` with the given
code. -/
inductive HelloResult where
| printed : String → Int → HelloResult
| raisedEidon : Int → HelloResult
  deriving DecidableEq, Repr

/-- The JSON document `_run` prints for `--format json`
(`json.dumps(payload, ensure_ascii=False, separators=(",", ":"))`),
modelled for names that need no JSON string escaping. -/
def helloJsonPayload (name : String) : String :=
  "\x7b\"ok\":true,\"command\":\"hello\",\"name\":\"" ++ name ++
    "\",\"greeting\":\"Hello, " ++ name ++ "!\"\x7d"

/-- `_run` (hello.py): the `EIDON_TEST_RAISE=EidonError` hook raises
`EidonError("boom", code=7)`; otherwise the effective name is greeted, as
JSON when `--format json` was parsed, else as plain text, and `0` is
returned. -/
def helloRun (testRaise : Bool) (argName envName : Option String)
    (cfg : Option Config) (fmt : String) : HelloResult :=
  if testRaise then HelloResult.raisedEidon 7
  else
    let name := effectiveName argName envName cfg
    if fmt = "json" then HelloResult.printed (helloJsonPayload name) 0
    else HelloResult.printed ("Hello, " ++ name ++ "!") 0

/-! ## Derived resolution functions and the characterization of `load_config`

The next definitions express, tier by tier, which value and which
provenance tag each recognized key ends up with; `loadConfig_eq` proves
that the sequential overwrite loop of `load_config` computes exactly
them. -/

/-- Left-biased choice on optional strings, i.e. "the higher tier wins
when it defines the key". -/
def oOr : Option String → Option String → Option String
| some a, _ => some a
| none, b => b

/-- The resolved `default_name`: the highest tier that defines the key,
with `"World"` as the bottom default. -/
def resolvedNameVal (u p : FileState) (op : Option String) (o : FileState)
    (en : Option String) : String :=
  (oOr en (oOr (fileName (overrideTier op o)) (oOr (fileName p) (fileName u)))).getD "World"

/-- The resolved `log_level` before case normalization: the raw string of
the highest tier that defines the key, `none` when no tier does. -/
def resolvedLevelRaw (u p : FileState) (op : Option String) (o : FileState)
    (el : Option String) : Option String :=
  oOr el (oOr (fileLevelRaw (overrideTier op o)) (oOr (fileLevelRaw p) (fileLevelRaw u)))

/-- The provenance tag of `default_name`: named after the highest tier
that defines the key. -/
def nameTag (u p : FileState) (op : Option String) (o : FileState)
    (en : Option String) : String :=
  if en.isSome then "env:EIDON_DEFAULT_NAME"
  else if (fileName (overrideTier op o)).isSome then "override:" ++ op.getD ""
  else if (fileName p).isSome then "project"
  else if (fileName u).isSome then "user"
  else "default"

/-- The provenance tag of `log_level`: named after the highest tier that
defines the key. -/
def levelTag (u p : FileState) (op : Option String) (o : FileState)
    (el : Option String) : String :=
  if el.isSome then "env:EIDON_LOG_LEVEL"
  else if (fileLevelRaw (overrideTier op o)).isSome then "override:" ++ op.getD ""
  else if (fileLevelRaw p).isSome then "project"
  else if (fileLevelRaw u).isSome then "user"
  else "default"

mutual
/-- Whether a table holds a string value under `default_name` or `name`
at any nesting depth — the exact domain on which the name search can
succeed. -/
def hasNameStr : TomlMap → Bool
| m => (getStr (tlookup m "default_name")).isSome
    || ((getStr (tlookup m "name")).isSome || hasNameStrNested m)
termination_by m => (sizeOf m, 1)
/-- `hasNameStr` ranging over the nested tables of a map. -/
def hasNameStrNested : TomlMap → Bool
| TomlMap.nil => false
| TomlMap.cons _ (TomlVal.vTable t) rest => hasNameStr t || hasNameStrNested rest
| TomlMap.cons _ _ rest => hasNameStrNested rest
termination_by m => (sizeOf m, 0)
end

theorem dictSet_dn (a b l : String) :
    dictSet [("default_name", a), ("log_level", b)] "default_name" l
      = [("default_name", l), ("log_level", b)] := by
  simp [dictSet]

theorem dictSet_ll (a b l : String) :
    dictSet [("default_name", a), ("log_level", b)] "log_level" l
      = [("default_name", a), ("log_level", l)] := by
  simp [dictSet]

/-- One file tier applied to a canonically-shaped state: valuewise each
key is overwritten exactly when the tier defines it, and the provenance
dict keeps its two-entry shape. -/
theorem applyFile_canonical (c : Config) (tagN tagL : String) (f : FileState) (label : String) :
    applyFile { cfg := c, sources := [("default_name", tagN), ("log_level", tagL)] } f label =
      { cfg := { default_name := (fileName f).getD c.default_name,
                 log_level := oOr (fileLevel f) c.log_level },
        sources := [("default_name", if (fileName f).isSome then label else tagN),
                    ("log_level", if (fileLevelRaw f).isSome then label else tagL)] } := by
  rcases f with _ | _ | m
  · simp [applyFile, fileName, fileLevel, fileLevelRaw, oOr]
  · simp [applyFile, fileName, fileLevel, fileLevelRaw, oOr]
  · show applyFromMapping _ m label = _
    unfold applyFromMapping
    simp only [fileName, fileLevel, fileLevelRaw, mapLevelRaw]
    repeat' split
    all_goals simp_all [oOr, dictSet_dn, dictSet_ll, dictSet]

theorem fileName_absent : fileName FileState.absent = none := rfl

theorem fileLevelRaw_absent : fileLevelRaw FileState.absent = none := rfl

theorem oOr_none_left (x : Option String) : oOr none x = x := rfl

theorem oOr_some (a : String) (x : Option String) : oOr (some a) x = some a := rfl

theorem oOr_getD (x y : Option String) (d : String) :
    (oOr x y).getD d = x.getD (y.getD d) := by
  cases x <;> simp [oOr]

theorem oOr_none (x : Option String) : oOr x none = x := by
  cases x <;> simp [oOr]

theorem oOr_map (x y : Option String) (f : String → String) :
    (oOr x y).map f = oOr (x.map f) (y.map f) := by
  cases x <;> simp [oOr]

theorem oOr_isSome (x y : Option String) :
    (oOr x y).isSome = (x.isSome || y.isSome) := by
  cases x <;> simp [oOr]

/-- Characterization of `load_config`: for each recognized key the result
holds the value of the highest tier defining it (upper-cased for
`log_level`), and the provenance dict holds exactly one tag per key,
naming that tier. -/
theorem loadConfig_eq (u p : FileState) (op : Option String) (o : FileState)
    (en el : Option String) :
    loadConfig u p op o en el =
      { cfg := { default_name := resolvedNameVal u p op o en,
                 log_level := (resolvedLevelRaw u p op o el).map pyUpper },
        sources := [("default_name", nameTag u p op o en),
                    ("log_level", levelTag u p op o el)] } := by
  unfold loadConfig initState
  rcases op with _ | q
  · cases en <;> cases el <;>
      simp [applyFile_canonical, overrideTier, resolvedNameVal, resolvedLevelRaw,
        nameTag, levelTag, oOr_getD, oOr_none, oOr_map, oOr_isSome, fileLevel,
        fileName_absent, fileLevelRaw_absent, oOr_none_left, oOr_some,
        dictSet_dn, dictSet_ll]
  · by_cases hq : q = "" <;> cases en <;> cases el <;>
      simp [hq, applyFile_canonical, overrideTier, resolvedNameVal, resolvedLevelRaw,
        nameTag, levelTag, oOr_getD, oOr_none, oOr_map, oOr_isSome, fileLevel,
        fileName_absent, fileLevelRaw_absent, oOr_none_left, oOr_some,
        dictSet_dn, dictSet_ll]

theorem fileName_malformed : fileName FileState.malformed = none := rfl

theorem fileLevelRaw_malformed : fileLevelRaw FileState.malformed = none := rfl

theorem sget_dn (a b : String) :
    sget [("default_name", a), ("log_level", b)] "default_name" = some a := by
  simp [sget]

theorem sget_ll (a b : String) :
    sget [("default_name", a), ("log_level", b)] "log_level" = some b := by
  simp [sget]

/-- The name search succeeds exactly on the maps holding a string under
`default_name` or `name` at some depth. -/
theorem findName_isSome_eq (m : TomlMap) :
    (findNameRecursive m).isSome = hasNameStr m := by
  refine hasNameStr.induct
    (fun m => (findNameRecursive m).isSome = hasNameStr m)
    (fun m => (findNameNested m).isSome = hasNameStrNested m)
    ?_ ?_ ?_ ?_ m
  · intro a h
    cases h1 : getStr (tlookup a "default_name") <;>
      cases h2 : getStr (tlookup a "name") <;>
      simp [findNameRecursive, hasNameStr, h1, h2, h]
  · simp [findNameNested, hasNameStrNested]
  · intro k t rest ht hrest
    rw [findNameNested, hasNameStrNested]
    cases h1 : findNameRecursive t <;> simp [h1] at ht ⊢ <;> simp [← ht, hrest]
  · intro k v rest hnv hrest
    cases v with
    | vTable t => exact absurd rfl (hnv t)
    | vStr s => simpa [findNameNested, hasNameStrNested] using hrest
    | vOther => simpa [findNameNested, hasNameStrNested] using hrest

/-- C1: for every recognized key, `load_config` resolves to the value of
the highest-precedence tier that defines it — environment beats the
override file, which beats the project file, which beats the user file,
which beats the built-in defaults (`"World"` / unset) — independently of
which lower tiers are also present. -/
theorem config_precedence_five_tiers (u p : FileState) (op : Option String)
    (o : FileState) (en el : Option String) :
    (loadConfig u p op o en el).cfg.default_name
      = (oOr en (oOr (fileName (overrideTier op o))
          (oOr (fileName p) (fileName u)))).getD "World"
  ∧ (loadConfig u p op o en el).cfg.log_level
      = oOr (el.map pyUpper) (oOr (fileLevel (overrideTier op o))
          (oOr (fileLevel p) (fileLevel u))) := by
  rw [loadConfig_eq]
  exact ⟨rfl, by simp [resolvedLevelRaw, oOr_map, fileLevel]⟩

/-- C2: `run_cli` maps each handler outcome to the documented exit code:
an integer return is passed through, a raised `EidonError` yields its
`code` attribute (which defaults to 2), `KeyboardInterrupt` yields 130,
any other exception yields the generic runtime code 3, and a missing
subcommand prints usage and yields the usage code 2. -/
theorem cli_exit_code_mapping (n c : Int) (outcome : HandlerOutcome) :
    runCliDispatch true (HandlerOutcome.ret n) = { usagePrinted := false, exitCode := n }
  ∧ runCliDispatch true (HandlerOutcome.eidonRaised c) = { usagePrinted := false, exitCode := c }
  ∧ eidonErrorCode none = 2
  ∧ runCliDispatch true HandlerOutcome.interrupt = { usagePrinted := false, exitCode := 130 }
  ∧ runCliDispatch true HandlerOutcome.unexpected = { usagePrinted := false, exitCode := 3 }
  ∧ runCliDispatch false outcome = { usagePrinted := true, exitCode := 2 } := by
  refine ⟨rfl, rfl, rfl, rfl, rfl, ?_⟩
  simp [runCliDispatch, EXIT_USAGE]

/-- C3: a malformed or unreadable config file at any of the three file
tiers never makes `load_config` fail; the result is identical to the one
computed with that tier absent. -/
theorem malformed_config_tier_as_absent (u p : FileState) (op : Option String)
    (o : FileState) (en el : Option String) :
    loadConfig FileState.malformed p op o en el = loadConfig FileState.absent p op o en el
  ∧ loadConfig u FileState.malformed op o en el = loadConfig u FileState.absent op o en el
  ∧ loadConfig u p op FileState.malformed en el = loadConfig u p op FileState.absent en el := by
  refine ⟨?_, ?_, ?_⟩ <;> rw [loadConfig_eq, loadConfig_eq] <;>
    simp [resolvedNameVal, resolvedLevelRaw, nameTag, levelTag,
      fileName_malformed, fileName_absent, fileLevelRaw_malformed, fileLevelRaw_absent]
  rcases op with _ | q
  · simp [overrideTier]
  · by_cases hq : q = "" <;>
      simp [overrideTier, hq, fileName_malformed, fileName_absent,
        fileLevelRaw_malformed, fileLevelRaw_absent]

/-- C4 counterexample: when no tier defines `log_level`, `load_config`
resolves it to `None` — a null value — because its built-in default is
unset, contradicting "never to an absent/null value". -/
theorem config_keys_counterexample :
    (loadConfig FileState.absent FileState.absent none FileState.absent none none).cfg.log_level
      = none := rfl

/-- C4 (amended): after `load_config` both recognized keys are present
with exactly one value and exactly one provenance tag — never absent,
never duplicated — and a key no tier defines resolves to its built-in
default: `"World"` for `default_name`, while `log_level`'s built-in
default is unset, so an undefined `log_level` resolves to `None`. -/
theorem config_keys_resolved_once (u p : FileState) (op : Option String)
    (o : FileState) (en el : Option String) :
    (∃ tn tl, (loadConfig u p op o en el).sources
        = [("default_name", tn), ("log_level", tl)])
  ∧ (en = none → fileName (overrideTier op o) = none → fileName p = none →
      fileName u = none → (loadConfig u p op o en el).cfg.default_name = "World")
  ∧ (el = none → fileLevelRaw (overrideTier op o) = none → fileLevelRaw p = none →
      fileLevelRaw u = none → (loadConfig u p op o en el).cfg.log_level = none) := by
  rw [loadConfig_eq]
  refine ⟨⟨_, _, rfl⟩, ?_, ?_⟩
  · intro h1 h2 h3 h4
    simp [resolvedNameVal, h1, h2, h3, h4, oOr]
  · intro h1 h2 h3 h4
    simp [resolvedLevelRaw, h1, h2, h3, h4, oOr]

theorem config_keys_resolved_once_witness :
    (loadConfig FileState.absent FileState.absent none FileState.absent none none).cfg.default_name
      = "World"
  ∧ (loadConfig FileState.absent FileState.absent none FileState.absent none none).cfg.log_level
      = none :=
  ⟨(config_keys_resolved_once FileState.absent FileState.absent none FileState.absent
      none none).2.1 rfl rfl rfl rfl,
   (config_keys_resolved_once FileState.absent FileState.absent none FileState.absent
      none none).2.2 rfl rfl rfl rfl⟩

/-- C5 counterexample: a name taken from the user config file is tagged
with the plain string `"user"`, which is not of the form `user:<path>`. -/
theorem provenance_tag_counterexample :
    sget (loadConfig
        (FileState.parsed (TomlMap.cons "default_name" (TomlVal.vStr "UserName") TomlMap.nil))
        FileState.absent none FileState.absent none none).sources "default_name"
      = some "user"
  ∧ ¬ ∃ path : String, "user" = "user:" ++ path := by
  constructor
  · simp [loadConfig_eq, nameTag, fileName, overrideTier, fileName_absent,
      findNameRecursive, tlookup, getStr, sget_dn]
  · rintro ⟨path, h⟩
    have h2 := congrArg String.data h
    simp [String.data_append] at h2

/-- The `default_name` provenance tag is one of the five label forms the
code writes. -/
theorem nameTag_cases (u p : FileState) (op : Option String) (o : FileState)
    (en : Option String) :
    nameTag u p op o en = "default" ∨ nameTag u p op o en = "user"
      ∨ nameTag u p op o en = "project"
      ∨ (∃ q, op = some q ∧ nameTag u p op o en = "override:" ++ q)
      ∨ nameTag u p op o en = "env:EIDON_DEFAULT_NAME" := by
  unfold nameTag
  split_ifs with h1 h2 h3 h4 <;> try simp
  rcases op with _ | q
  · simp [overrideTier, fileName_absent] at h2
  · by_cases hq : q = ""
    · subst hq; simp [overrideTier, fileName_absent] at h2
    · exact Or.inr (Or.inr (Or.inr (Or.inl ⟨q, rfl, by simp⟩)))

/-- The `log_level` provenance tag is one of the five label forms the
code writes. -/
theorem levelTag_cases (u p : FileState) (op : Option String) (o : FileState)
    (el : Option String) :
    levelTag u p op o el = "default" ∨ levelTag u p op o el = "user"
      ∨ levelTag u p op o el = "project"
      ∨ (∃ q, op = some q ∧ levelTag u p op o el = "override:" ++ q)
      ∨ levelTag u p op o el = "env:EIDON_LOG_LEVEL" := by
  unfold levelTag
  split_ifs with h1 h2 h3 h4 <;> try simp
  rcases op with _ | q
  · simp [overrideTier, fileLevelRaw_absent] at h2
  · by_cases hq : q = ""
    · subst hq; simp [overrideTier, fileLevelRaw_absent] at h2
    · exact Or.inr (Or.inr (Or.inr (Or.inl ⟨q, rfl, by simp⟩)))

/-- C5 (amended): every provenance tag `load_config` records is one of
`default`, `user`, `project`, `override:<path>` or `env:<VAR_NAME>`; the
user and project file tiers are tagged with the plain labels `user` and
`project`, without a path. -/
theorem provenance_tag_forms (u p : FileState) (op : Option String)
    (o : FileState) (en el : Option String) :
    (∀ t, sget (loadConfig u p op o en el).sources "default_name" = some t →
        t = "default" ∨ t = "user" ∨ t = "project"
          ∨ (∃ q, op = some q ∧ t = "override:" ++ q) ∨ t = "env:EIDON_DEFAULT_NAME")
  ∧ (∀ t, sget (loadConfig u p op o en el).sources "log_level" = some t →
        t = "default" ∨ t = "user" ∨ t = "project"
          ∨ (∃ q, op = some q ∧ t = "override:" ++ q) ∨ t = "env:EIDON_LOG_LEVEL") := by
  rw [loadConfig_eq]
  constructor
  · intro t ht
    rw [sget_dn, Option.some.injEq] at ht
    subst ht
    exact nameTag_cases u p op o en
  · intro t ht
    rw [sget_ll, Option.some.injEq] at ht
    subst ht
    exact levelTag_cases u p op o el

theorem provenance_tag_forms_witness :
    ("project" = "default" ∨ "project" = "user" ∨ "project" = "project"
      ∨ (∃ q, (none : Option String) = some q ∧ "project" = "override:" ++ q)
      ∨ "project" = "env:EIDON_DEFAULT_NAME") :=
  (provenance_tag_forms FileState.absent
      (FileState.parsed (TomlMap.cons "name" (TomlVal.vStr "P") TomlMap.nil))
      none FileState.absent none none).1 "project"
    (by simp [loadConfig_eq, nameTag, fileName, overrideTier, fileName_absent,
      findNameRecursive, tlookup, getStr, sget_dn])

/-- C6 counterexample: a string name nested two levels deep (not "exactly
one level") is accepted by the search and decides the resolved name. -/
theorem name_search_depth_counterexample :
    findNameRecursive (TomlMap.cons "a" (TomlVal.vTable (TomlMap.cons "b"
        (TomlVal.vTable (TomlMap.cons "name" (TomlVal.vStr "X") TomlMap.nil))
        TomlMap.nil)) TomlMap.nil) = some "X"
  ∧ (loadConfig (FileState.parsed (TomlMap.cons "a" (TomlVal.vTable (TomlMap.cons "b"
        (TomlVal.vTable (TomlMap.cons "name" (TomlVal.vStr "X") TomlMap.nil))
        TomlMap.nil)) TomlMap.nil))
      FileState.absent none FileState.absent none none).cfg.default_name = "X" := by
  constructor
  · simp [findNameRecursive, findNameNested, tlookup, getStr]
  · simp [loadConfig_eq, resolvedNameVal, fileName, overrideTier, fileName_absent,
      findNameRecursive, findNameNested, tlookup, getStr, oOr]

/-- C6 (amended): a config file may supply the name under a direct key or
nested inside subsections at any depth; the deterministic search tries
the direct keys `default_name` then `name` first, then the nested tables
top-down, uses the first string match, and succeeds exactly when some
table holds a string under a recognized key at any depth — non-string or
absent values are ignored without error. -/
theorem name_search_spec (m : TomlMap) :
    (∀ s, getStr (tlookup m "default_name") = some s → findNameRecursive m = some s)
  ∧ (∀ s, getStr (tlookup m "default_name") = none →
      getStr (tlookup m "name") = some s → findNameRecursive m = some s)
  ∧ (findNameRecursive m).isSome = hasNameStr m := by
  refine ⟨?_, ?_, findName_isSome_eq m⟩
  · intro s h
    simp [findNameRecursive, h]
  · intro s h1 h2
    simp [findNameRecursive, h1, h2]

theorem name_search_spec_witness :
    findNameRecursive (TomlMap.cons "default_name" (TomlVal.vStr "A")
        (TomlMap.cons "name" (TomlVal.vStr "B") TomlMap.nil)) = some "A"
  ∧ findNameRecursive (TomlMap.cons "x" TomlVal.vOther
        (TomlMap.cons "name" (TomlVal.vStr "B") TomlMap.nil)) = some "B" :=
  ⟨(name_search_spec _).1 "A" (by decide),
   (name_search_spec _).2.1 "B" (by decide) (by decide)⟩

/-- C7: the dispatcher resolves the effective log level by strict
precedence — CLI `--log-level` flag, then `EIDON_LOG_LEVEL`, then the
config-file value, then the default `WARNING` — where a source counts as
set when it is non-empty after stripping whitespace; the numeric level
passed to `logging.basicConfig` is looked up from the upper-cased
winner. -/
theorem log_level_precedence (cli envVar cfgVal : Option String) :
    (pyStrip (cli.getD "") ≠ "" →
        configuredLevelName cli envVar cfgVal = pyStrip (cli.getD ""))
  ∧ (pyStrip (cli.getD "") = "" → pyStrip (envVar.getD "") ≠ "" →
        configuredLevelName cli envVar cfgVal = pyStrip (envVar.getD ""))
  ∧ (pyStrip (cli.getD "") = "" → pyStrip (envVar.getD "") = "" →
        pyStrip (cfgVal.getD "") ≠ "" →
        configuredLevelName cli envVar cfgVal = pyStrip (cfgVal.getD ""))
  ∧ (pyStrip (cli.getD "") = "" → pyStrip (envVar.getD "") = "" →
        pyStrip (cfgVal.getD "") = "" →
        configuredLevelName cli envVar cfgVal = "WARNING")
  ∧ configureLoggingLevel cli envVar cfgVal
      = getattrLevel (pyUpper (configuredLevelName cli envVar cfgVal)) := by
  refine ⟨?_, ?_, ?_, ?_, rfl⟩
  · intro h1
    simp [configuredLevelName, h1]
  · intro h1 h2
    simp [configuredLevelName, h1, h2]
  · intro h1 h2 h3
    simp [configuredLevelName, h1, h2, h3]
  · intro h1 h2 h3
    simp [configuredLevelName, h1, h2, h3]

theorem log_level_precedence_witness :
    configuredLevelName (some "DEBUG") (some "info") (some "error")
      = pyStrip ((some "DEBUG" : Option String).getD "") :=
  (log_level_precedence (some "DEBUG") (some "info") (some "error")).1 (by decide)

/-- C8: whichever tier supplies the log level — any of the three file
tiers or the `EIDON_LOG_LEVEL` environment variable, in any case mix —
the value stored in the resolved config is the upper-cased form of that
tier's raw input. -/
theorem log_level_uppercased (u p : FileState) (op : Option String)
    (o : FileState) (en el : Option String) :
    (∀ s, resolvedLevelRaw u p op o el = some s →
        (loadConfig u p op o en el).cfg.log_level = some (pyUpper s))
  ∧ (∀ s, el = some s →
        (loadConfig u p op o en el).cfg.log_level = some (pyUpper s)) := by
  rw [loadConfig_eq]
  constructor
  · intro s h
    simp [h]
  · intro s h
    subst h
    simp [resolvedLevelRaw, oOr]

theorem log_level_uppercased_witness :
    (loadConfig (FileState.parsed (TomlMap.cons "log_level" (TomlVal.vStr "dEbUg") TomlMap.nil))
        FileState.absent none FileState.absent none none).cfg.log_level
      = some (pyUpper "dEbUg")
  ∧ pyUpper "dEbUg" = "DEBUG" :=
  ⟨(log_level_uppercased (FileState.parsed (TomlMap.cons "log_level" (TomlVal.vStr "dEbUg")
      TomlMap.nil)) FileState.absent none FileState.absent none none).1 "dEbUg" (by decide),
   by decide⟩

/-- C9: the hello subcommand resolves the greeted name by precedence
`--name` flag over `EIDON_DEFAULT_NAME` over the config `default_name`
over the built-in `"World"` (each source counting when set and
non-empty), prints exactly `Hello, <name>!` in text mode and returns 0;
with nothing set it prints `Hello, World!`, and the flag beats the
environment variable. -/
theorem hello_name_precedence (argName envName : Option String) (cfg : Option Config) :
    (truthyOpt argName = true → effectiveName argName envName cfg = argName.getD "")
  ∧ (truthyOpt argName = false → truthyOpt envName = true →
      effectiveName argName envName cfg = envName.getD "")
  ∧ (truthyOpt argName = false → truthyOpt envName = false →
      truthyOpt (cfg.map Config.default_name) = true →
      effectiveName argName envName cfg = (cfg.map Config.default_name).getD "")
  ∧ (truthyOpt argName = false → truthyOpt envName = false →
      truthyOpt (cfg.map Config.default_name) = false →
      effectiveName argName envName cfg = "World")
  ∧ helloRun false argName envName cfg "text"
      = HelloResult.printed ("Hello, " ++ effectiveName argName envName cfg ++ "!") 0
  ∧ helloRun false none none
      (some (loadConfig FileState.absent FileState.absent none FileState.absent none none).cfg)
      "text" = HelloResult.printed "Hello, World!" 0
  ∧ helloRun false (some "CLI") (some "EnvName") cfg "text"
      = HelloResult.printed "Hello, CLI!" 0 := by
  refine ⟨?_, ?_, ?_, ?_, ?_, by decide, ?_⟩
  · intro h1
    simp [effectiveName, h1]
  · intro h1 h2
    simp [effectiveName, h1, h2]
  · intro h1 h2 h3
    rcases cfg with _ | c
    · simp [truthyOpt] at h3
    · simp [truthyOpt] at h3
      simp [effectiveName, h1, h2, h3]
  · intro h1 h2 h3
    rcases cfg with _ | c
    · simp [effectiveName, h1, h2]
    · simp [truthyOpt] at h3
      simp [effectiveName, h1, h2, h3]
  · simp [helloRun]
  · simp [helloRun, effectiveName, truthyOpt]

theorem hello_name_precedence_witness :
    effectiveName (some "CLI") (some "EnvName") none
      = (some "CLI" : Option String).getD "" :=
  (hello_name_precedence (some "CLI") (some "EnvName") none).1 (by decide)

/-- C10: an empty-string `--name` argument is falsy in Python, so the
hello command treats it as if the flag were absent: resolution falls
through to the environment variable, then the config value, then
`"World"`. -/
theorem hello_empty_name_falls_through (envName : Option String) (cfg : Option Config) :
    effectiveName (some "") envName cfg = effectiveName none envName cfg
  ∧ effectiveName (some "") (some "EnvName") cfg = "EnvName"
  ∧ effectiveName (some "") none none = "World" := by
  refine ⟨?_, ?_, by decide⟩
  · simp [effectiveName, truthyOpt]
  · simp [effectiveName, truthyOpt]

end Eidon
